import Mathlib

/-!
Shallow embedding of the ralph repository's core data model and operations:
the task backlog (`internal/prd/prd.go`), the run registry
(`internal/config/config.go`), the process supervisor (`internal/loop/loop.go`
and the CLI stop command), and the run-loop engine (`cmd/run.go`).

Go slices become Lean lists, Go maps become association lists, machine
integers become `Nat` (all quantities involved are small non-negative
counts), fallible operations return `Except`/`Option`, and the filesystem
and OS process state are passed explicitly.
-/

/-- Mirror of the Go struct `prd.Story`
(fields `ID`, `Title`, `Description`, `AcceptanceCriteria`, `Passes`). -/
structure Story where
  ID : String
  Title : String
  Description : String
  AcceptanceCriteria : List String
  Passes : Bool
deriving Repr, DecidableEq

/-- Mirror of the Go struct `prd.PRD`
(fields `Name`, `Description`, `UserStories`). -/
structure PRD where
  Name : String
  Description : String
  UserStories : List Story
deriving Repr, DecidableEq

/-- Model of `prd.GetCurrentStory`: the Go loop returns a pointer to the first story
whose `Passes` field is false, or nil; modelled as `List.find?`. -/
def PRD.GetCurrentStory (p : PRD) : Option Story :=
  p.UserStories.find? (fun s => ! s.Passes)

/-- Model of `prd.ProgressPercent`: returns 0 for an empty backlog, otherwise
`(done * 100) / len(UserStories)` with Go integer (floor) division,
where `done` counts the stories with `Passes == true`. -/
def PRD.ProgressPercent (p : PRD) : Nat :=
  if p.UserStories.length = 0 then 0
  else ((p.UserStories.filter (fun s => s.Passes)).length * 100) / p.UserStories.length

/-- The list part of `prd.MarkStoryComplete`: the Go loop walks the slice,
sets `Passes = true` on the first story whose `ID` matches and returns true;
returns false when no story matches. Modelled as returning the flag and the
updated list. -/
def markStoriesComplete (storyID : String) : List Story → Bool × List Story
  | [] => (false, [])
  | s :: rest =>
    if s.ID = storyID then (true, { s with Passes := true } :: rest)
    else
      let r := markStoriesComplete storyID rest
      (r.1, s :: r.2)

/-- Model of `prd.MarkStoryComplete` on the whole document. -/
def PRD.MarkStoryComplete (p : PRD) (storyID : String) : Bool × PRD :=
  let r := markStoriesComplete storyID p.UserStories
  (r.1, { p with UserStories := r.2 })

/-- Model of `prd.AddStory`: assigns `ID = fmt.Sprintf("%d", len+1)` when the caller
supplied an empty id, then appends. -/
def PRD.AddStory (p : PRD) (story : Story) : PRD :=
  let story :=
    if story.ID = "" then { story with ID := toString (p.UserStories.length + 1) }
    else story
  { p with UserStories := p.UserStories ++ [story] }

/-- Model of `prd.IsComplete`: the Go loop returns false as soon as a story with
`Passes == false` is seen, and otherwise returns `len(UserStories) > 0`. -/
def PRD.IsComplete (p : PRD) : Bool :=
  if p.UserStories.any (fun s => ! s.Passes) then false
  else decide (0 < p.UserStories.length)

/-! ## JSON layer for `prd.Save` / `prd.Load`

`prd.Save` writes `json.MarshalIndent(prd)` to `<root>/.ralph/prd.json`;
`prd.Load` reads that file and `json.Unmarshal`s it.  The byte-level JSON
printer/parser is the Go standard library; the repository's contribution is
the struct-tag field mapping.  We model JSON documents as a value tree and
the stdlib codec as the (faithful) encoder below plus a decoder following
`encoding/json` unmarshal semantics: a missing field or JSON `null` leaves
the zero value in place, a type mismatch is an error. -/

inductive Json where
  | null : Json
  | bool : Bool → Json
  | num : Int → Json
  | str : String → Json
  | arr : List Json → Json
  | obj : List (String × Json) → Json
deriving Repr

/-- Field lookup inside a JSON object (exact-name match, which is what the
stdlib uses for keys produced by the struct tags themselves). -/
def lookupField (fields : List (String × Json)) (key : String) : Option Json :=
  (fields.find? (fun e => e.1 = key)).map (fun e => e.2)

/-- Marshal of `prd.Story` per its struct tags. -/
def Story.toJson (s : Story) : Json :=
  .obj [("id", .str s.ID), ("title", .str s.Title),
        ("description", .str s.Description),
        ("acceptanceCriteria", .arr (s.AcceptanceCriteria.map Json.str)),
        ("passes", .bool s.Passes)]

/-- Marshal of `prd.PRD` per its struct tags. -/
def PRD.toJson (p : PRD) : Json :=
  .obj [("name", .str p.Name), ("description", .str p.Description),
        ("userStories", .arr (p.UserStories.map Story.toJson))]

/-- Unmarshal of a JSON value into a Go `string` field (zero value `""` on
missing field or `null`, error on type mismatch). -/
def decodeStringField : Option Json → Except String String
  | none => .ok ""
  | some .null => .ok ""
  | some (.str s) => .ok s
  | some _ => .error "cannot unmarshal into field of type string"

/-- Unmarshal of a JSON value into a Go `bool` field. -/
def decodeBoolField : Option Json → Except String Bool
  | none => .ok false
  | some .null => .ok false
  | some (.bool b) => .ok b
  | some _ => .error "cannot unmarshal into field of type bool"

/-- Unmarshal of the elements of a JSON array into `[]string`. -/
def decodeStringItems : List Json → Except String (List String)
  | [] => .ok []
  | .str s :: rest => do
    let tail ← decodeStringItems rest
    .ok (s :: tail)
  | _ :: _ => .error "cannot unmarshal array element into string"

/-- Unmarshal of a JSON value into a `[]string` field (nil slice on missing
field or `null`). -/
def decodeStringArrayField : Option Json → Except String (List String)
  | none => .ok []
  | some .null => .ok []
  | some (.arr xs) => decodeStringItems xs
  | some _ => .error "cannot unmarshal into field of type []string"

/-- Unmarshal into `prd.Story` (a JSON `null` leaves the zero struct,
per `encoding/json`). -/
def Story.fromJson : Json → Except String Story
  | .null => .ok { ID := "", Title := "", Description := "",
                   AcceptanceCriteria := [], Passes := false }
  | .obj fields => do
    let id ← decodeStringField (lookupField fields "id")
    let title ← decodeStringField (lookupField fields "title")
    let descr ← decodeStringField (lookupField fields "description")
    let ac ← decodeStringArrayField (lookupField fields "acceptanceCriteria")
    let passes ← decodeBoolField (lookupField fields "passes")
    .ok { ID := id, Title := title, Description := descr,
          AcceptanceCriteria := ac, Passes := passes }
  | _ => .error "cannot unmarshal into Story"

/-- Unmarshal of the elements of a JSON array into `[]Story`. -/
def decodeStoryItems : List Json → Except String (List Story)
  | [] => .ok []
  | j :: rest => do
    let s ← Story.fromJson j
    let tail ← decodeStoryItems rest
    .ok (s :: tail)

/-- Unmarshal of a JSON value into a `[]Story` field. -/
def decodeStoryArrayField : Option Json → Except String (List Story)
  | none => .ok []
  | some .null => .ok []
  | some (.arr xs) => decodeStoryItems xs
  | some _ => .error "cannot unmarshal into field of type []Story"

/-- Unmarshal into `prd.PRD`. -/
def PRD.fromJson : Json → Except String PRD
  | .null => .ok { Name := "", Description := "", UserStories := [] }
  | .obj fields => do
    let name ← decodeStringField (lookupField fields "name")
    let descr ← decodeStringField (lookupField fields "description")
    let stories ← decodeStoryArrayField (lookupField fields "userStories")
    .ok { Name := name, Description := descr, UserStories := stories }
  | _ => .error "cannot unmarshal into PRD"

/-! ## Filesystem model for `prd.Save` / `prd.Load`

A file on disk either holds bytes that the stdlib parser accepts (carried as
the parsed `Json` value) or bytes it rejects (`malformed`).  The filesystem
is a map from path to file content; `none` means the file does not exist. -/

inductive FileData where
  | wellFormed : Json → FileData
  | malformed : FileData

def FS : Type := String → Option FileData

/-- Model of `prd.PRDPath`: `filepath.Join(projectRoot, ".ralph", "prd.json")`. -/
def PRDPath (projectRoot : String) : String :=
  projectRoot ++ "/.ralph/prd.json"

/-- Model of `prd.Save`: creates the directory as needed and overwrites the file
with the marshalled document. -/
def Save (projectRoot : String) (p : PRD) (fs : FS) : FS :=
  fun path => if path = PRDPath projectRoot then some (.wellFormed p.toJson) else fs path

/-- Model of `prd.Load`: a missing file yields `(nil, nil)` (no document, no error);
unparseable bytes or a shape the unmarshaller rejects yield a parse error. -/
def Load (projectRoot : String) (fs : FS) : Except String (Option PRD) :=
  match fs (PRDPath projectRoot) with
  | none => .ok none
  | some .malformed => .error "failed to parse PRD"
  | some (.wellFormed j) =>
    match PRD.fromJson j with
    | .ok p => .ok (some p)
    | .error _ => .error "failed to parse PRD"

/-! ## Run registry (`internal/config/config.go`)

`config.Loop` is the session record; the registry file holds a map from
name to record.  `GetLoop` / `SetLoop` are load-file, read-or-upsert,
save-file; with the file passed explicitly they collapse to pure
association-list operations. -/

/-- Mirror of `config.Loop`: one session record in the registry. -/
structure Loop where
  Name : String
  Path : String
  Project : String
  Feature : String
  Branch : String
  Status : String
  PID : Nat
  Created : String
  Started : String
  Stopped : String
deriving Repr, DecidableEq

abbrev Registry : Type := List (String × Loop)

/-- Model of `config.GetLoop`: lookup by name in the registry map. -/
def Config.GetLoop (reg : Registry) (name : String) : Option Loop :=
  (List.find? (fun e => e.1 = name) reg).map (fun e => e.2)

/-- Model of `config.SetLoop`: upsert `registry.Loops[loop.Name] = loop`. -/
def Config.SetLoop (reg : Registry) (l : Loop) : Registry :=
  if (List.find? (fun e => e.1 = l.Name) reg).isSome then
    List.map (fun e => if e.1 = l.Name then (l.Name, l) else e) reg
  else reg ++ [(l.Name, l)]

/-! ## Process supervisor (`internal/loop/loop.go`) and CLI stop command

The OS process world enters as explicit booleans: `probeOk` is the outcome
of the signal-0 liveness probe, `sigtermOk` the outcome of SIGTERM
delivery, `findOk` the outcome of `os.FindProcess` (on Unix the latter
always succeeds; the code handles its error branch anyway and so does the
model). -/

/-- Model of `loop.IsRunning`: false for a nil record or `PID == 0`; otherwise the
signal-0 probe decides (any probe failure yields false). -/
def LoopPkg.IsRunning (l : Option Loop) (probeOk : Bool) : Bool :=
  match l with
  | none => false
  | some l => if l.PID = 0 then false else probeOk

/-- Model of `loop.Stop`: no-op when not running; otherwise find the process
(an error there aborts), send SIGTERM (an error there aborts WITHOUT the
registry write), and only then write the record back as stopped. -/
def LoopPkg.Stop (l : Loop) (probeOk findOk sigtermOk : Bool) (reg : Registry) :
    Except String Unit × Registry :=
  if ! LoopPkg.IsRunning (some l) probeOk then (.ok (), reg)
  else if ! findOk then (.error "failed to find process", reg)
  else if ! sigtermOk then (.error "failed to stop process", reg)
  else (.ok (), Config.SetLoop reg { l with PID := 0, Status := "stopped" })

/-- The stop logic of the CLI `runStop` (cmd/stop.go) from the point where
the record has been fetched: `PID == 0` is a warned no-op; a FindProcess
error marks the record stopped anyway; a SIGTERM failure is only warned and
the record is still marked stopped with `PID = 0`. -/
def Cmd.runStop (l : Loop) (findOk sigtermOk : Bool) (reg : Registry) :
    Except String Unit × Registry :=
  if l.PID = 0 then (.ok (), reg)
  else if ! findOk then (.ok (), Config.SetLoop reg { l with PID := 0, Status := "stopped" })
  else
    -- a failed Signal(SIGTERM) is only printWarn-ed; sigtermOk does not
    -- change the control flow from here on
    let _ := sigtermOk
    (.ok (), Config.SetLoop reg { l with PID := 0, Status := "stopped" })

/-! ## Run-loop engine entry (`cmd/run.go`, `runAgent`)

The entry sequence before the main loop: find the project root, load the
backlog, refuse when the registry already shows this session running,
handle dry-run, and otherwise write the record back as running. -/

structure EntryEnv where
  inProject : Bool
  prdLoad : Except String (Option PRD)
  dryRun : Bool
  name : String
  path : String
  now : String
  pid : Nat

/-- The entry phase of `runAgent` up to and including the first registry
write, returning the overall outcome and the registry afterwards. -/
def Cmd.runAgentEntry (env : EntryEnv) (reg : Registry) :
    Except String Unit × Registry :=
  if ! env.inProject then (.error "not in a ralph project", reg)
  else
    match env.prdLoad with
    | .error _ => (.error "failed to load PRD", reg)
    | .ok none => (.error "no PRD found", reg)
    | .ok (some _) =>
      let loop := Config.GetLoop reg env.name
      if (match loop with | some l => decide (l.Status = "running") | none => false) then
        (.error "loop is already running", reg)
      else if env.dryRun then (.ok (), reg)
      else
        let base : Loop := match loop with
          | none => { Name := env.name, Path := env.path, Project := "", Feature := "",
                      Branch := "", Status := "running", PID := 0, Created := "",
                      Started := "", Stopped := "" }
          | some l => l
        let started := { base with Status := "running", Started := env.now, PID := env.pid }
        (.ok (), Config.SetLoop reg started)

/-! ## Run-loop engine main loop (`cmd/run.go`, `runAgent`)

The environment supplies, per iteration index `i` (1-based): the backlog
the engine reads back from disk at the top of iteration `i` (`none` when
the file is missing or unreadable — the code discards the load error), and
the agent process outcome when the invoker actually spawns it.
`cancelFrom = some c` means the OS interrupt flipped the cancellation flag
before the top of iteration `c` (and the flag stays set).

The loop body is, per the source:

1. `select { case <-ctx.Done(): break; default: }` — in Go, `break` inside
   a `select` terminates the SELECT statement only, so this check never
   exits the `for` loop; the model therefore gives it no effect.
2. reload the backlog; `nil` or complete stops the loop;
3. emit the iteration's log section (the iteration "begins");
4. call the invoker: under a cancelled context `exec.CommandContext` fails
   before spawning and `ctx.Err() != nil` makes the loop break; a plain
   failure is logged and the loop continues; success continues after a
   pause.

The result is the list of iteration indices whose log section was
emitted. -/

structure RunEnv where
  prdAt : Nat → Option PRD
  invokerOk : Nat → Bool
  cancelFrom : Option Nat

/-- Whether the cancellation flag is set by the top of iteration `i`. -/
def RunEnv.canceledAt (env : RunEnv) (i : Nat) : Bool :=
  match env.cancelFrom with
  | none => false
  | some c => decide (c ≤ i)

/-- The main loop of `runAgent` as compiled Go executes it: the
top-of-iteration `select` check has no effect (its `break` exits only the
`select`), so cancellation is only observed through the invoker's context
error. -/
def runLoopGoIter (env : RunEnv) : Nat → Nat → List Nat
  | _, 0 => []
  | i, fuel + 1 =>
    -- top-of-loop select: no effect (break-in-select)
    match env.prdAt i with
    | none => []
    | some p =>
      if p.IsComplete then []
      else
        i :: (if env.canceledAt i then []          -- invoker fails with ctx error; break
              else if env.invokerOk i then runLoopGoIter env (i + 1) fuel
              else runLoopGoIter env (i + 1) fuel) -- failure logged; continue

/-- The `runAgent` loop over iterations `1 .. maxIterations`. -/
def runLoopGo (env : RunEnv) (maxIterations : Nat) : List Nat :=
  runLoopGoIter env 1 maxIterations

/-- Modelled from the spec: the run loop as §4.4 and end-to-end scenario D
describe it — the engine "checks [the cancellation flag] at the top of each
iteration" and stops "without starting a further iteration".  Identical to
`runLoopGoIter` except that the top-of-iteration check actually exits the
loop. -/
def runLoopSpecIter (env : RunEnv) : Nat → Nat → List Nat
  | _, 0 => []
  | i, fuel + 1 =>
    if env.canceledAt i then []
    else
      match env.prdAt i with
      | none => []
      | some p =>
        if p.IsComplete then []
        else
          i :: (if env.canceledAt i then []
                else if env.invokerOk i then runLoopSpecIter env (i + 1) fuel
                else runLoopSpecIter env (i + 1) fuel)

/-- Modelled from the spec: loop over iterations `1 .. maxIterations`. -/
def runLoopSpec (env : RunEnv) (maxIterations : Nat) : List Nat :=
  runLoopSpecIter env 1 maxIterations

/-! ## Theorems -/

/-- C1: for every backlog, `IsComplete` returns true iff the backlog has at
least one item and every item has `passes == true`; in particular it
returns false for an empty backlog, where `ProgressPercent` returns 0. -/
theorem IsComplete_iff_nonempty_all_pass (p : PRD) :
    (p.IsComplete = true ↔
      0 < p.UserStories.length ∧ ∀ s ∈ p.UserStories, s.Passes = true)
    ∧ (p.UserStories = [] → p.IsComplete = false ∧ p.ProgressPercent = 0) := by
  constructor
  · simp only [PRD.IsComplete]
    by_cases h : p.UserStories.any (fun s => ! s.Passes) = true
    · rw [if_pos h]
      rw [List.any_eq_true] at h
      obtain ⟨s, hs, hpass⟩ := h
      constructor
      · intro hfalse; exact absurd hfalse (by decide)
      · rintro ⟨-, hall⟩
        rw [hall s hs] at hpass
        exact absurd hpass (by decide)
    · rw [if_neg h]
      have hall : ∀ s ∈ p.UserStories, s.Passes = true := by
        intro s hs
        cases hP : s.Passes
        · exact absurd (List.any_eq_true.mpr ⟨s, hs, by simp [hP]⟩) h
        · rfl
      simp only [decide_eq_true_eq]
      exact ⟨fun hl => ⟨hl, hall⟩, fun hand => hand.1⟩
  · intro hempty
    constructor
    · simp [PRD.IsComplete, hempty]
    · simp [PRD.ProgressPercent, hempty]

/-- C1 witness: a two-story complete backlog is complete, and the empty
backlog is not complete while its progress percentage is 0. -/
theorem IsComplete_iff_nonempty_all_pass_witness :
    (PRD.mk "f" "" [Story.mk "1" "a" "" [] true, Story.mk "2" "b" "" [] true]).IsComplete = true
    ∧ (PRD.mk "f" "" []).IsComplete = false
    ∧ (PRD.mk "f" "" []).ProgressPercent = 0 := by
  refine ⟨?_, ?_, ?_⟩
  · exact (IsComplete_iff_nonempty_all_pass
      (PRD.mk "f" "" [Story.mk "1" "a" "" [] true, Story.mk "2" "b" "" [] true])).1.mpr
      (by decide)
  · exact ((IsComplete_iff_nonempty_all_pass (PRD.mk "f" "" [])).2 rfl).1
  · exact ((IsComplete_iff_nonempty_all_pass (PRD.mk "f" "" [])).2 rfl).2

/-- C6: for every backlog, `ProgressPercent` equals the floor of
`100 * done / total` (which in particular is 0 when `total = 0`, matching
Nat division by zero), where `done` counts the items with
`passes == true`; the result never exceeds 100. -/
theorem ProgressPercent_floor (p : PRD) :
    p.ProgressPercent
      = (p.UserStories.filter (fun s => s.Passes)).length * 100 / p.UserStories.length
    ∧ (⌊(((p.UserStories.filter (fun s => s.Passes)).length * 100 : ℕ) : ℚ)
          / ((p.UserStories.length : ℕ) : ℚ)⌋₊ = p.ProgressPercent)
    ∧ p.ProgressPercent ≤ 100 := by
  have hdiv : p.ProgressPercent
      = (p.UserStories.filter (fun s => s.Passes)).length * 100 / p.UserStories.length := by
    unfold PRD.ProgressPercent
    by_cases h : p.UserStories.length = 0
    · simp [h]
    · simp [h]
  refine ⟨hdiv, ?_, ?_⟩
  · rw [hdiv]
    exact_mod_cast Nat.floor_div_eq_div (α := ℚ)
      ((p.UserStories.filter (fun s => s.Passes)).length * 100) p.UserStories.length
  · rw [hdiv]
    by_cases h : p.UserStories.length = 0
    · simp [h]
    · have hle : (p.UserStories.filter (fun s => s.Passes)).length ≤ p.UserStories.length :=
        List.length_filter_le _ _
      calc (p.UserStories.filter (fun s => s.Passes)).length * 100 / p.UserStories.length
          ≤ p.UserStories.length * 100 / p.UserStories.length :=
            Nat.div_le_div_right (Nat.mul_le_mul_right 100 hle)
        _ = 100 := Nat.mul_div_cancel_left 100 (Nat.pos_of_ne_zero h)

/-- C7: `GetCurrentStory` returns the earliest item in stored order with
`passes == false` (strictly positional), and `none` exactly when every
item passes (including the empty backlog). -/
theorem GetCurrentStory_first_incomplete (p : PRD) :
    (p.GetCurrentStory = none ↔ ∀ s ∈ p.UserStories, s.Passes = true)
    ∧ (∀ s, p.GetCurrentStory = some s →
        s.Passes = false
        ∧ ∃ l₁ l₂, p.UserStories = l₁ ++ s :: l₂ ∧ ∀ t ∈ l₁, t.Passes = true)
    ∧ (∀ l₁ s l₂, p.UserStories = l₁ ++ s :: l₂ → (∀ t ∈ l₁, t.Passes = true) →
        s.Passes = false → p.GetCurrentStory = some s) := by
  refine ⟨?_, ?_, ?_⟩
  · unfold PRD.GetCurrentStory
    rw [List.find?_eq_none]
    constructor
    · intro h s hs
      have := h s hs
      simpa using this
    · intro h s hs
      simp [h s hs]
  · intro s hfind
    unfold PRD.GetCurrentStory at hfind
    rw [List.find?_eq_some] at hfind
    obtain ⟨hpass, l₁, l₂, heq, hall⟩ := hfind
    refine ⟨by simpa using hpass, l₁, l₂, heq, fun t ht => ?_⟩
    have := hall t ht
    simpa using this
  · intro l₁ s l₂ heq hall hpass
    unfold PRD.GetCurrentStory
    rw [List.find?_eq_some]
    exact ⟨by simp [hpass], l₁, l₂, heq, fun t ht => by simp [hall t ht]⟩

/-- C7 witness: on a concrete backlog whose first story passes and second
does not, the second story is returned, with the positional split. -/
theorem GetCurrentStory_first_incomplete_witness :
    (PRD.mk "f" "" [Story.mk "1" "a" "" [] true]).GetCurrentStory = none
    ∧ (PRD.mk "f" "" [Story.mk "1" "a" "" [] true, Story.mk "2" "b" "" [] false,
        Story.mk "3" "c" "" [] false]).GetCurrentStory = some (Story.mk "2" "b" "" [] false) := by
  constructor
  · exact (GetCurrentStory_first_incomplete
      (PRD.mk "f" "" [Story.mk "1" "a" "" [] true])).1.mpr (by decide)
  · exact (GetCurrentStory_first_incomplete
      (PRD.mk "f" "" [Story.mk "1" "a" "" [] true, Story.mk "2" "b" "" [] false,
        Story.mk "3" "c" "" [] false])).2.2
      [Story.mk "1" "a" "" [] true] (Story.mk "2" "b" "" [] false)
      [Story.mk "3" "c" "" [] false] rfl (by decide) rfl

/-- Helper: `markStoriesComplete` returns `false` and the unchanged list
when no story has the requested id. -/
theorem markStoriesComplete_not_found (storyID : String) (l : List Story)
    (h : ∀ s ∈ l, s.ID ≠ storyID) :
    markStoriesComplete storyID l = (false, l) := by
  induction l with
  | nil => rfl
  | cons s rest ih =>
    have hs : s.ID ≠ storyID := h s (by simp)
    simp only [markStoriesComplete, if_neg hs]
    rw [ih (fun t ht => h t (by simp [ht]))]

/-- Helper: `markStoriesComplete` on a list split at the first matching
story flips exactly that story's `Passes` field. -/
theorem markStoriesComplete_found (storyID : String) (l₁ : List Story) (s : Story)
    (l₂ : List Story) (h₁ : ∀ t ∈ l₁, t.ID ≠ storyID) (hs : s.ID = storyID) :
    markStoriesComplete storyID (l₁ ++ s :: l₂)
      = (true, l₁ ++ { s with Passes := true } :: l₂) := by
  induction l₁ with
  | nil => simp [markStoriesComplete, hs]
  | cons t rest ih =>
    have ht : t.ID ≠ storyID := h₁ t (by simp)
    have ih' := ih (fun u hu => h₁ u (by simp [hu]))
    simp only [List.cons_append, markStoriesComplete, if_neg ht, List.append_eq, ih']

/-- Helper: the boolean result of `markStoriesComplete` says whether some
story has the requested id. -/
theorem markStoriesComplete_fst (storyID : String) (l : List Story) :
    (markStoriesComplete storyID l).1 = l.any (fun s => decide (s.ID = storyID)) := by
  induction l with
  | nil => rfl
  | cons s rest ih =>
    by_cases h : s.ID = storyID
    · simp [markStoriesComplete, h]
    · simp [markStoriesComplete, h, ih]

/-- C10: `MarkStoryComplete` returns true iff some story has the id; it
flips `Passes` on the first such story only, leaves every other story and
every other backlog field unchanged, and is the identity (returning false)
when no story matches. -/
theorem MarkStoryComplete_frame (p : PRD) (storyID : String) :
    ((p.MarkStoryComplete storyID).1 = true ↔ ∃ s ∈ p.UserStories, s.ID = storyID)
    ∧ (p.MarkStoryComplete storyID).2.Name = p.Name
    ∧ (p.MarkStoryComplete storyID).2.Description = p.Description
    ∧ ((∀ s ∈ p.UserStories, s.ID ≠ storyID) → p.MarkStoryComplete storyID = (false, p))
    ∧ (∀ l₁ s l₂, p.UserStories = l₁ ++ s :: l₂ → (∀ t ∈ l₁, t.ID ≠ storyID) →
        s.ID = storyID →
        p.MarkStoryComplete storyID
          = (true, { p with UserStories := l₁ ++ { s with Passes := true } :: l₂ })) := by
  refine ⟨?_, rfl, rfl, ?_, ?_⟩
  · unfold PRD.MarkStoryComplete
    simp only [markStoriesComplete_fst, List.any_eq_true, decide_eq_true_eq]
  · intro h
    unfold PRD.MarkStoryComplete
    rw [markStoriesComplete_not_found storyID p.UserStories h]
  · intro l₁ s l₂ heq h₁ hs
    unfold PRD.MarkStoryComplete
    rw [heq, markStoriesComplete_found storyID l₁ s l₂ h₁ hs]

/-- C10 witness: concrete matching and non-matching updates. -/
theorem MarkStoryComplete_frame_witness :
    (PRD.mk "f" "d" [Story.mk "1" "a" "" [] true,
        Story.mk "2" "b" "bd" ["c1"] false]).MarkStoryComplete "2"
      = (true, PRD.mk "f" "d" [Story.mk "1" "a" "" [] true,
          Story.mk "2" "b" "bd" ["c1"] true])
    ∧ (PRD.mk "f" "d" [Story.mk "1" "a" "" [] true]).MarkStoryComplete "9"
      = (false, PRD.mk "f" "d" [Story.mk "1" "a" "" [] true]) := by
  constructor
  · have h := (MarkStoryComplete_frame
      (PRD.mk "f" "d" [Story.mk "1" "a" "" [] true, Story.mk "2" "b" "bd" ["c1"] false])
      "2").2.2.2.2 [Story.mk "1" "a" "" [] true] (Story.mk "2" "b" "bd" ["c1"] false) []
      rfl (by decide) rfl
    simpa using h
  · exact (MarkStoryComplete_frame
      (PRD.mk "f" "d" [Story.mk "1" "a" "" [] true]) "9").2.2.2.1 (by decide)

/-- C5 counterexample: a backlog with pairwise distinct ids (the single id
"2", supplied by the caller) to which `AddStory` with an empty caller id
appends the auto-assigned id `string(1 + 1) = "2"`, duplicating an
existing id. -/
theorem AddStory_id_collision :
    List.Nodup ((PRD.mk "f" "" [Story.mk "2" "a" "" [] false]).UserStories.map Story.ID)
    ∧ ((PRD.mk "f" "" [Story.mk "2" "a" "" [] false]).AddStory
        (Story.mk "" "b" "" [] false)).UserStories.map Story.ID = ["2", "2"]
    ∧ ¬ List.Nodup (((PRD.mk "f" "" [Story.mk "2" "a" "" [] false]).AddStory
        (Story.mk "" "b" "" [] false)).UserStories.map Story.ID) := by
  refine ⟨by decide, ?_, by decide⟩
  rfl

/-- C5 (amended): `AddStory` keeps a supplied nonempty id and otherwise
assigns `string(count_before_append + 1)`; it preserves pairwise
distinctness of ids provided that effective id does not already occur in
the backlog. -/
theorem AddStory_preserves_nodup (p : PRD) (story : Story)
    (hnodup : List.Nodup (p.UserStories.map Story.ID))
    (hfresh : (if story.ID = "" then toString (p.UserStories.length + 1) else story.ID)
        ∉ p.UserStories.map Story.ID) :
    (p.AddStory story).UserStories
      = p.UserStories
          ++ [if story.ID = "" then { story with ID := toString (p.UserStories.length + 1) }
              else story]
    ∧ List.Nodup ((p.AddStory story).UserStories.map Story.ID) := by
  have hlist : (p.AddStory story).UserStories
      = p.UserStories
          ++ [if story.ID = "" then { story with ID := toString (p.UserStories.length + 1) }
              else story] := by
    unfold PRD.AddStory
    by_cases h : story.ID = ""
    · simp [h]
    · simp [h]
  refine ⟨hlist, ?_⟩
  rw [hlist, List.map_append, List.nodup_append]
  refine ⟨hnodup, by simp, ?_⟩
  intro x hx hx'
  by_cases h : story.ID = ""
  · simp only [h, if_true, List.map_cons, List.map_nil, List.mem_singleton] at hx'
    rw [if_pos h] at hfresh
    subst hx'
    exact hfresh hx
  · simp only [h, if_false, List.map_cons, List.map_nil, List.mem_singleton] at hx'
    rw [if_neg h] at hfresh
    subst hx'
    exact hfresh hx

/-- C5 (amended) witness: appending an empty-id story to a backlog with ids
["1"] assigns the fresh id "2" and keeps the ids pairwise distinct. -/
theorem AddStory_preserves_nodup_witness :
    ((PRD.mk "f" "" [Story.mk "1" "a" "" [] false]).AddStory
        (Story.mk "" "b" "" [] false)).UserStories
      = [Story.mk "1" "a" "" [] false, Story.mk "2" "b" "" [] false]
    ∧ List.Nodup (((PRD.mk "f" "" [Story.mk "1" "a" "" [] false]).AddStory
        (Story.mk "" "b" "" [] false)).UserStories.map Story.ID) := by
  have h := AddStory_preserves_nodup (PRD.mk "f" "" [Story.mk "1" "a" "" [] false])
    (Story.mk "" "b" "" [] false) (by decide) (by decide)
  exact ⟨by decide, h.2⟩

/-- Helper: decoding an encoded string array recovers it. -/
theorem decodeStringItems_map (l : List String) :
    decodeStringItems (l.map Json.str) = .ok l := by
  induction l with
  | nil => rfl
  | cons s rest ih =>
    simp only [List.map_cons, decodeStringItems, ih]
    rfl

/-- Helper: unmarshalling a marshalled story recovers it. -/
theorem storyJson_roundtrip (s : Story) : Story.fromJson s.toJson = .ok s := by
  cases s with
  | mk id title descr ac passes =>
    simp [Story.toJson, Story.fromJson, lookupField, decodeStringField,
          decodeBoolField, decodeStringArrayField, decodeStringItems_map,
          List.find?]
    rfl

/-- Helper: decoding an encoded story array recovers it. -/
theorem decodeStoryItems_map (l : List Story) :
    decodeStoryItems (l.map Story.toJson) = .ok l := by
  induction l with
  | nil => rfl
  | cons s rest ih =>
    simp only [List.map_cons, decodeStoryItems, storyJson_roundtrip, ih]
    rfl

/-- Helper: unmarshalling a marshalled document recovers it. -/
theorem prdJson_roundtrip (p : PRD) : PRD.fromJson p.toJson = .ok p := by
  cases p with
  | mk name descr stories =>
    simp [PRD.toJson, PRD.fromJson, lookupField, decodeStringField,
          decodeStoryArrayField, decodeStoryItems_map, List.find?]
    rfl

/-- C8: saving a backlog to a root and loading from that root succeeds and
yields an equal backlog (same items in the same order, same name and
description). -/
theorem Save_Load_roundtrip (projectRoot : String) (p : PRD) (fs : FS) :
    Load projectRoot (Save projectRoot p fs) = .ok (some p) := by
  simp [Load, Save, prdJson_roundtrip]

/-- C9: `Load` returns no backlog and no error when the backlog file does
not exist, and a parse error (not a null backlog) when the file exists but
its content is malformed — whether the bytes are not JSON at all or the
JSON does not unmarshal into the document shape. -/
theorem Load_missing_vs_malformed (projectRoot : String) (fs : FS) :
    (fs (PRDPath projectRoot) = none → Load projectRoot fs = .ok none)
    ∧ (fs (PRDPath projectRoot) = some .malformed →
        Load projectRoot fs = .error "failed to parse PRD")
    ∧ (∀ j e, fs (PRDPath projectRoot) = some (.wellFormed j) →
        PRD.fromJson j = .error e →
        Load projectRoot fs = .error "failed to parse PRD") := by
  refine ⟨?_, ?_, ?_⟩
  · intro h; simp [Load, h]
  · intro h; simp [Load, h]
  · intro j e h hj; simp [Load, h, hj]

/-- C9 witness: a filesystem without the backlog file loads as no document
and no error; one with unparseable bytes, and one with well-formed JSON of
the wrong shape, both load as a parse error. -/
theorem Load_missing_vs_malformed_witness :
    Load "r" (fun _ => none) = .ok none
    ∧ Load "r" (fun _ => some .malformed) = .error "failed to parse PRD"
    ∧ Load "r" (fun _ => some (.wellFormed (.obj [("name", .num 5)])))
        = .error "failed to parse PRD" := by
  refine ⟨?_, ?_, ?_⟩
  · exact (Load_missing_vs_malformed "r" (fun _ => none)).1 rfl
  · exact (Load_missing_vs_malformed "r" (fun _ => some .malformed)).2.1 rfl
  · exact (Load_missing_vs_malformed "r"
      (fun _ => some (.wellFormed (.obj [("name", .num 5)])))).2.2
      (.obj [("name", .num 5)]) "cannot unmarshal into field of type string" rfl rfl

/-- C3 counterexample: a session the probe reports running (PID 42, record
status "running"), whose SIGTERM delivery then fails: `loop.Stop` returns
an error and does NOT write the session record back — the registry still
shows the running record — refuting "always writes the session record back
... regardless of whether the signal delivery succeeded or failed". -/
theorem Stop_no_write_on_signal_failure :
    LoopPkg.IsRunning (some (Loop.mk "w" "/p" "" "" "" "running" 42 "" "" "")) true = true
    ∧ LoopPkg.Stop (Loop.mk "w" "/p" "" "" "" "running" 42 "" "" "") true true false
        [("w", Loop.mk "w" "/p" "" "" "" "running" 42 "" "" "")]
      = (.error "failed to stop process",
         [("w", Loop.mk "w" "/p" "" "" "" "running" 42 "" "" "")]) := by
  exact ⟨rfl, rfl⟩

/-- C3 (amended): stopping a session that is not running is a no-op
without error; when running, `loop.Stop` writes the record back as stopped
with `PID = 0` only when SIGTERM delivery succeeds, while the CLI stop
command (`runStop`) writes it back unconditionally, whatever the
FindProcess or signal outcome. -/
theorem stop_registry_write_behavior (l : Loop) (reg : Registry)
    (probeOk findOk sigtermOk : Bool) :
    (LoopPkg.IsRunning (some l) probeOk = false →
        LoopPkg.Stop l probeOk findOk sigtermOk reg = (.ok (), reg))
    ∧ (LoopPkg.IsRunning (some l) probeOk = true → findOk = true → sigtermOk = true →
        LoopPkg.Stop l probeOk findOk sigtermOk reg
          = (.ok (), Config.SetLoop reg { l with PID := 0, Status := "stopped" }))
    ∧ (l.PID = 0 → Cmd.runStop l findOk sigtermOk reg = (.ok (), reg))
    ∧ (l.PID ≠ 0 → Cmd.runStop l findOk sigtermOk reg
          = (.ok (), Config.SetLoop reg { l with PID := 0, Status := "stopped" })) := by
  refine ⟨?_, ?_, ?_, ?_⟩
  · intro h
    unfold LoopPkg.Stop
    rw [h]
    rfl
  · intro h hf hst
    unfold LoopPkg.Stop
    rw [h, hf, hst]
    rfl
  · intro h
    unfold Cmd.runStop
    rw [if_pos h]
  · intro h
    unfold Cmd.runStop
    rw [if_neg h]
    cases findOk
    · rfl
    · rfl

/-- C3 (amended) witness: one running session whose signal delivery fails
is still marked stopped by the CLI stop command; one non-running session is
a no-op for `loop.Stop`. -/
theorem stop_registry_write_behavior_witness :
    Cmd.runStop (Loop.mk "w" "/p" "" "" "" "running" 42 "" "" "") true false
        [("w", Loop.mk "w" "/p" "" "" "" "running" 42 "" "" "")]
      = (.ok (), [("w", Loop.mk "w" "/p" "" "" "" "stopped" 0 "" "" "")])
    ∧ LoopPkg.Stop (Loop.mk "s" "/q" "" "" "" "stopped" 0 "" "" "") true true true []
      = (.ok (), []) := by
  constructor
  · have h := (stop_registry_write_behavior
      (Loop.mk "w" "/p" "" "" "" "running" 42 "" "" "")
      [("w", Loop.mk "w" "/p" "" "" "" "running" 42 "" "" "")] true true false).2.2.2
      (by decide)
    rw [h]
    rfl
  · exact (stop_registry_write_behavior (Loop.mk "s" "/q" "" "" "" "stopped" 0 "" "" "")
      [] true true true).1 rfl

/-- C4: when the registry record for the session name has status
"running", `runAgent` fails with the already-running error before any
registry write, and the registry is left entirely unchanged. -/
theorem runAgentEntry_already_running (env : EntryEnv) (reg : Registry) (l : Loop)
    (p : PRD) (hproj : env.inProject = true) (hprd : env.prdLoad = .ok (some p))
    (hloop : Config.GetLoop reg env.name = some l) (hrun : l.Status = "running") :
    Cmd.runAgentEntry env reg = (.error "loop is already running", reg) := by
  unfold Cmd.runAgentEntry
  rw [hproj, hprd]
  simp [hloop, hrun]

/-- C4 witness: a concrete registry showing the session running makes the
entry fail with the already-running error and leaves the registry as it
was. -/
theorem runAgentEntry_already_running_witness :
    Cmd.runAgentEntry
        (EntryEnv.mk true (.ok (some (PRD.mk "f" "" [Story.mk "1" "a" "" [] false])))
          false "w" "/p" "t0" 7)
        [("w", Loop.mk "w" "/p" "" "" "" "running" 42 "" "" "")]
      = (.error "loop is already running",
         [("w", Loop.mk "w" "/p" "" "" "" "running" 42 "" "" "")]) := by
  exact runAgentEntry_already_running
    (EntryEnv.mk true (.ok (some (PRD.mk "f" "" [Story.mk "1" "a" "" [] false])))
      false "w" "/p" "t0" 7)
    [("w", Loop.mk "w" "/p" "" "" "" "running" 42 "" "" "")]
    (Loop.mk "w" "/p" "" "" "" "running" 42 "" "" "")
    (PRD.mk "f" "" [Story.mk "1" "a" "" [] false]) rfl rfl rfl rfl

/-- C2: evaluation of the run loop at the failing input. With a two-
iteration budget, a backlog that stays incomplete, a successful first
invoker call, and the cancellation flag set during the pause after
iteration 1 (observed from iteration 2 onward), the loop as compiled
(`runLoopGo`, where the `break` in the top-of-loop `select` exits only the
select statement) still begins iteration 2 — reloading the backlog,
emitting its log section and calling the invoker — whereas the loop the
spec describes (`runLoopSpec`, where the top-of-iteration check stops the
loop) begins no iteration after the flag is set. -/
theorem runLoopGo_begins_iteration_after_cancel :
    runLoopGo
        (RunEnv.mk (fun _ => some (PRD.mk "f" "" [Story.mk "1" "a" "" [] false]))
          (fun _ => true) (some 2)) 2
      = [1, 2]
    ∧ (RunEnv.mk (fun _ => some (PRD.mk "f" "" [Story.mk "1" "a" "" [] false]))
        (fun _ => true) (some 2)).canceledAt 2 = true
    ∧ runLoopSpec
        (RunEnv.mk (fun _ => some (PRD.mk "f" "" [Story.mk "1" "a" "" [] false]))
          (fun _ => true) (some 2)) 2
      = [1] := by
  exact ⟨rfl, rfl, rfl⟩
